import Mathlib

/-!
# Verification of the small-library ASAN allocators

Shallow embedding of the diagnostic (ASAN) strategy of the `small` memory
allocator family: the layout primitive (`src/include/small/util.h`,
`src/small/util.c`) and the five allocators built on top of it
(mempool, region, lsregion, obuf, small).  Machine addresses and sizes are
modelled as `Nat`; every definition mirrors the corresponding C function.
Fatal `small_assert` failures are modelled as `Option.none` results.
-/

namespace SmallLib

/-! ## Layout primitive (`util.h` / `util.c`) -/

/-- `SMALL_HEADER_ALIGNMENT = sizeof(long long)` (util.h). -/
def SMALL_HEADER_ALIGNMENT : Nat := 8

/-- `SMALL_POISON_ALIGNMENT` (util.h). -/
def SMALL_POISON_ALIGNMENT : Nat := 8

/-- Modelled from the spec: `SMALL_ASAN_HEADER_ALIGNMENT` is declared in a
header that is not under `src/` (only `src/small/util.c` uses it).  Per the
layout description it plays the same role as `SMALL_HEADER_ALIGNMENT`
(room for the 16-bit offset while keeping the header aligned), so it is the
same fixed constant; its exact value does not enter any proved property. -/
def SMALL_ASAN_HEADER_ALIGNMENT : Nat := 8

/-- `small_align_down(value, alignment)` (util.h): round `value` down to a
multiple of `alignment`.  The C code computes `value & ~(alignment - 1)`,
which for a power-of-two alignment equals `value - value % alignment`. -/
def small_align_down (value alignment : Nat) : Nat :=
  value - value % alignment

/-- `small_wrapper_size(header_size, payload_size, alignment)` (util.h). -/
def small_wrapper_size (header_size payload_size alignment : Nat) : Nat :=
  header_size + 2 * alignment - 1 + payload_size

/-- `small_wrapper_payload(ptr, header_size, payload_size, alignment)`
(util.h): payload address inside the wrapper block based at `ptr`. -/
def small_wrapper_payload (ptr header_size payload_size alignment : Nat) : Nat :=
  let wrapper_size := small_wrapper_size header_size payload_size alignment
  let payload := ptr + wrapper_size - payload_size
  let payload := small_align_down payload alignment
  if payload % (2 * alignment) = 0 then payload - alignment else payload

/-- `small_wrapper_header(payload, header_size)` (util.h): header address
recovered from a payload address. -/
def small_wrapper_header (payload header_size : Nat) : Nat :=
  small_align_down (payload - header_size) SMALL_HEADER_ALIGNMENT

/-- The wrapper pointers (`struct small_wrapper`, util.h).  `alloc_offset` is
the `struct small_header` field stored inside the block. -/
structure SmallWrapper where
  ptr : Nat
  header : Nat
  payload : Nat
  alloc_offset : Nat
  deriving Repr, DecidableEq

/-- `small_wrapper_alloc` (util.h) with the fresh heap block based at `base`:
computes the payload and header addresses and stores
`alloc_offset = header - ptr` in the header. -/
def small_wrapper_alloc (base payload_size alignment header_size : Nat) :
    SmallWrapper :=
  let payload := small_wrapper_payload base header_size payload_size alignment
  let header := small_wrapper_header payload header_size
  { ptr := base, header := header, payload := payload,
    alloc_offset := header - base }

/-- `small_wrapper_from_header` (util.h): recover the wrapper pointers from
the header address and the stored `alloc_offset`. -/
def small_wrapper_from_header (header alloc_offset payload_size alignment
    header_size : Nat) : SmallWrapper :=
  let ptr := header - alloc_offset
  { ptr := ptr, header := header,
    payload := small_wrapper_payload ptr header_size payload_size alignment,
    alloc_offset := alloc_offset }

/-- `small_wrapper_from_payload` (util.h): recover the wrapper pointers from
the payload address; reads `alloc_offset` from the (unpoisoned) header. -/
def small_wrapper_from_payload (payload alloc_offset header_size : Nat) :
    SmallWrapper :=
  let header := small_wrapper_header payload header_size
  { ptr := header - alloc_offset, header := header, payload := payload,
    alloc_offset := alloc_offset }

/-- `small_asan_alloc(payload_size, alignment, header_size)` (util.c):
payload address chosen inside the heap block based at `base`. -/
def small_asan_alloc_payload (base payload_size alignment header_size : Nat) :
    Nat :=
  let alloc_size := SMALL_ASAN_HEADER_ALIGNMENT + header_size +
    SMALL_POISON_ALIGNMENT - 1 + 2 + 2 * alignment - 1 + payload_size
  let payload := base + alloc_size - payload_size
  let payload := small_align_down payload alignment
  if payload % (2 * alignment) = 0 then payload - alignment else payload

/-! ### Arithmetic facts about the layout -/

theorem small_align_down_eq_mul (value alignment : Nat) :
    small_align_down value alignment = alignment * (value / alignment) := by
  unfold small_align_down
  have h := Nat.div_add_mod value alignment
  omega

theorem small_align_down_mod (value alignment : Nat) :
    small_align_down value alignment % alignment = 0 := by
  rw [small_align_down_eq_mul]
  exact Nat.mul_mod_right _ _

theorem small_align_down_le (value alignment : Nat) :
    small_align_down value alignment ≤ value := by
  unfold small_align_down; omega

theorem small_align_down_gt (value alignment : Nat) (h : 0 < alignment) :
    value < small_align_down value alignment + alignment := by
  unfold small_align_down
  have := Nat.mod_lt value h
  omega

theorem small_align_down_mono {a b : Nat} (alignment : Nat) (hab : a ≤ b) :
    small_align_down a alignment ≤ small_align_down b alignment := by
  rcases Nat.eq_zero_or_pos alignment with h | h
  · unfold small_align_down; simp [h]
  · have ha := small_align_down_mod a alignment
    have hb := small_align_down_gt b alignment h
    have hb' := small_align_down_mod b alignment
    by_contra hlt
    push_neg at hlt
    have h1 : small_align_down b alignment + alignment ≤
        small_align_down a alignment := by
      have hd : alignment ∣ small_align_down a alignment :=
        Nat.dvd_of_mod_eq_zero ha
      have hd' : alignment ∣ small_align_down b alignment :=
        Nat.dvd_of_mod_eq_zero hb'
      rcases hd with ⟨ka, hka⟩
      rcases hd' with ⟨kb, hkb⟩
      rw [hka, hkb] at hlt ⊢
      have : kb < ka := by
        by_contra hk
        push_neg at hk
        exact absurd (Nat.mul_le_mul_left alignment hk) (by omega)
      calc alignment * kb + alignment = alignment * (kb + 1) := by ring
        _ ≤ alignment * ka := Nat.mul_le_mul_left alignment (by omega)
    have h2 := small_align_down_le a alignment
    omega

/-- Core alignment fact: rounding down to a multiple of `A` and stepping back
by `A` when the result is `2A`-aligned yields an address that is `A`-aligned
but never `2A`-aligned, provided the input is at least `A`. -/
theorem payload_adjust_spec (x A : Nat) (hA : 0 < A) (hx : A ≤ x) :
    (if small_align_down x A % (2 * A) = 0 then small_align_down x A - A
     else small_align_down x A) % A = 0 ∧
    (if small_align_down x A % (2 * A) = 0 then small_align_down x A - A
     else small_align_down x A) % (2 * A) ≠ 0 := by
  set p := small_align_down x A with hp
  have hmod : p % A = 0 := small_align_down_mod x A
  have hge : A ≤ p := by
    have h1 := small_align_down_gt x A hA
    have hd : A ∣ p := Nat.dvd_of_mod_eq_zero hmod
    rcases hd with ⟨k, hk⟩
    have hpos : 0 < k := by
      by_contra h
      push_neg at h
      interval_cases k <;> omega
    calc A = A * 1 := by ring
      _ ≤ A * k := Nat.mul_le_mul_left A hpos
      _ = p := hk.symm
  rcases Nat.dvd_of_mod_eq_zero hmod with ⟨k, hk⟩
  by_cases h2 : p % (2 * A) = 0
  · rcases Nat.dvd_of_mod_eq_zero h2 with ⟨m, hm⟩
    have hm1 : 1 ≤ m := by
      by_contra h
      push_neg at h
      interval_cases m <;> omega
    simp only [h2, if_pos]
    have hstep : 2 * A * (m - 1) + 2 * A = 2 * A * m := by
      rw [← Nat.mul_succ]
      congr 1
      omega
    have hAm : 2 * A ≤ 2 * A * m := by
      calc 2 * A = 2 * A * 1 := by ring
        _ ≤ 2 * A * m := Nat.mul_le_mul_left _ hm1
    constructor
    · have hodd : p - A = A * (2 * m - 1) := by
        have h5 : A * (2 * m - 1) + A = A * (2 * m) := by
          rw [← Nat.mul_succ]
          congr 1
          omega
        have h6 : A * (2 * m) = 2 * A * m := by ring
        omega
      rw [hodd]
      exact Nat.mul_mod_right _ _
    · have hrw : p - A = 2 * A * (m - 1) + A := by omega
      rw [hrw]
      have h7 : (2 * A * (m - 1) + A) % (2 * A) = A % (2 * A) :=
        Nat.mul_add_mod _ _ _
      have h8 : A % (2 * A) = A := Nat.mod_eq_of_lt (by omega)
      omega
  · simp only [h2, if_neg, not_false_iff]
    exact ⟨hmod, h2⟩

/--
C4: for every power-of-two alignment `A` (including `A = 1`), every block
base, every header size and every payload size, the payload address computed
by the layout primitive (`small_wrapper_payload` in util.h, and the same
computation in `small_asan_alloc` in util.c) satisfies `addr % A = 0` and
`addr % (2*A) ≠ 0`.
-/
theorem small_wrapper_payload_alignment (ptr header_size payload_size A k : Nat)
    (hA : A = 2 ^ k) :
    small_wrapper_payload ptr header_size payload_size A % A = 0 ∧
    small_wrapper_payload ptr header_size payload_size A % (2 * A) ≠ 0 ∧
    small_asan_alloc_payload ptr payload_size A header_size % A = 0 ∧
    small_asan_alloc_payload ptr payload_size A header_size % (2 * A) ≠ 0 := by
  have hApos : 0 < A := hA ▸ Nat.pos_pow_of_pos k (by norm_num)
  have h1 := payload_adjust_spec
    (ptr + small_wrapper_size header_size payload_size A - payload_size) A
    hApos (by unfold small_wrapper_size; omega)
  have h2 := payload_adjust_spec
    (ptr + (SMALL_ASAN_HEADER_ALIGNMENT + header_size +
      SMALL_POISON_ALIGNMENT - 1 + 2 + 2 * A - 1 + payload_size) -
      payload_size) A hApos
    (by unfold SMALL_ASAN_HEADER_ALIGNMENT SMALL_POISON_ALIGNMENT; omega)
  refine ⟨?_, ?_, ?_, ?_⟩
  · unfold small_wrapper_payload; exact h1.1
  · unfold small_wrapper_payload; exact h1.2
  · unfold small_asan_alloc_payload; exact h2.1
  · unfold small_asan_alloc_payload; exact h2.2

/-- Witness for `small_wrapper_payload_alignment` at
`ptr = 100, header_size = 16, payload_size = 24, A = 4`. -/
theorem small_wrapper_payload_alignment_witness :
    small_wrapper_payload 100 16 24 4 % 4 = 0 ∧
    small_wrapper_payload 100 16 24 4 % 8 ≠ 0 ∧
    small_asan_alloc_payload 100 24 4 16 % 4 = 0 ∧
    small_asan_alloc_payload 100 24 4 16 % 8 ≠ 0 :=
  small_wrapper_payload_alignment 100 16 24 4 2 (by norm_num)

/-- The payload chosen by `small_wrapper_payload` leaves at least
`header_size` bytes between the block base and the payload. -/
theorem small_wrapper_payload_ge (base header_size payload_size A : Nat)
    (hA : 0 < A) :
    base + header_size ≤
      small_wrapper_payload base header_size payload_size A := by
  unfold small_wrapper_payload small_wrapper_size
  dsimp only
  set x := base + (header_size + 2 * A - 1 + payload_size) - payload_size
    with hx
  have hxval : x = base + header_size + 2 * A - 1 := by omega
  have h1 : x < small_align_down x A + A := small_align_down_gt x A hA
  split <;> omega

/-- Shared layout facts about a block built by `small_wrapper_alloc` on an
8-byte-aligned heap base: the payload is at least `header_size` past the
base, the header is `SMALL_HEADER_ALIGNMENT`-aligned, lies at or after the
base, and `[header, header + header_size)` ends at or before the payload. -/
theorem wrapper_layout_facts (base payload_size A header_size : Nat)
    (hA : 0 < A) (hbase : base % SMALL_HEADER_ALIGNMENT = 0) :
    base + header_size ≤
      (small_wrapper_alloc base payload_size A header_size).payload ∧
    (small_wrapper_alloc base payload_size A header_size).header %
      SMALL_HEADER_ALIGNMENT = 0 ∧
    base ≤ (small_wrapper_alloc base payload_size A header_size).header ∧
    (small_wrapper_alloc base payload_size A header_size).header +
      header_size ≤
      (small_wrapper_alloc base payload_size A header_size).payload := by
  have hpay := small_wrapper_payload_ge base header_size payload_size A hA
  have hw_pay : (small_wrapper_alloc base payload_size A header_size).payload =
      small_wrapper_payload base header_size payload_size A := rfl
  have hw_hdr : (small_wrapper_alloc base payload_size A header_size).header =
      small_align_down
        (small_wrapper_payload base header_size payload_size A - header_size)
        SMALL_HEADER_ALIGNMENT := rfl
  have hmod := small_align_down_mod
    (small_wrapper_payload base header_size payload_size A - header_size)
    SMALL_HEADER_ALIGNMENT
  have hmono := small_align_down_mono (a := base)
    (b := small_wrapper_payload base header_size payload_size A - header_size)
    SMALL_HEADER_ALIGNMENT (by omega)
  have hbase' : small_align_down base SMALL_HEADER_ALIGNMENT = base := by
    unfold small_align_down
    omega
  have hle := small_align_down_le
    (small_wrapper_payload base header_size payload_size A - header_size)
    SMALL_HEADER_ALIGNMENT
  refine ⟨by omega, by rw [hw_hdr]; exact hmod, by omega, by omega⟩

/--
C10: for every power-of-two alignment `A ≥ 1`, payload size, and header
size, assuming the heap block base is 8-byte aligned, the layout computed by
`small_wrapper_alloc` fits inside the block: the payload starts at least
`header_size` bytes past the base, the header is aligned to
`SMALL_HEADER_ALIGNMENT`, lies at or after the base, and the header range
ends at or before the payload — so the internal assertions
`payload >= ptr` and `header >= ptr` can never fail.
-/
theorem small_wrapper_alloc_fits (base payload_size A header_size k : Nat)
    (hA : A = 2 ^ k) (hbase : base % SMALL_HEADER_ALIGNMENT = 0) :
    base + header_size ≤
      (small_wrapper_alloc base payload_size A header_size).payload ∧
    (small_wrapper_alloc base payload_size A header_size).header %
      SMALL_HEADER_ALIGNMENT = 0 ∧
    base ≤ (small_wrapper_alloc base payload_size A header_size).header ∧
    (small_wrapper_alloc base payload_size A header_size).header +
      header_size ≤
      (small_wrapper_alloc base payload_size A header_size).payload :=
  wrapper_layout_facts base payload_size A header_size
    (hA ▸ Nat.pos_pow_of_pos k (by norm_num)) hbase

/-- Witness for `small_wrapper_alloc_fits` at
`base = 16, payload_size = 10, A = 4, header_size = 16`. -/
theorem small_wrapper_alloc_fits_witness :
    16 + 16 ≤ (small_wrapper_alloc 16 10 4 16).payload ∧
    (small_wrapper_alloc 16 10 4 16).header % SMALL_HEADER_ALIGNMENT = 0 ∧
    16 ≤ (small_wrapper_alloc 16 10 4 16).header ∧
    (small_wrapper_alloc 16 10 4 16).header + 16 ≤
      (small_wrapper_alloc 16 10 4 16).payload :=
  small_wrapper_alloc_fits 16 10 4 16 2 (by norm_num) (by decide)

/--
C5: for every live block created by `small_wrapper_alloc` (heap bases are
8-byte aligned, alignments are powers of two), recovering the wrapper from
the header (`small_wrapper_from_header`) and recovering it from the payload
(`small_wrapper_from_payload`) each return exactly the original wrapper, so
the payload-from-header and header-from-payload derivations are mutually
inverse on live blocks.
-/
theorem small_wrapper_roundtrip (base payload_size A header_size k : Nat)
    (hA : A = 2 ^ k) (hbase : base % SMALL_HEADER_ALIGNMENT = 0) :
    (small_wrapper_from_header
        (small_wrapper_alloc base payload_size A header_size).header
        (small_wrapper_alloc base payload_size A header_size).alloc_offset
        payload_size A header_size) =
      small_wrapper_alloc base payload_size A header_size ∧
    (small_wrapper_from_payload
        (small_wrapper_alloc base payload_size A header_size).payload
        (small_wrapper_alloc base payload_size A header_size).alloc_offset
        header_size) =
      small_wrapper_alloc base payload_size A header_size := by
  have hApos : 0 < A := hA ▸ Nat.pos_pow_of_pos k (by norm_num)
  have hfacts := wrapper_layout_facts base payload_size A header_size
    hApos hbase
  rcases hfacts with ⟨hpay, hmod, hge, hfit⟩
  have hptr : (small_wrapper_alloc base payload_size A header_size).header -
      (small_wrapper_alloc base payload_size A header_size).alloc_offset =
      base := by
    simp only [small_wrapper_alloc] at hge ⊢
    omega
  constructor
  · simp only [small_wrapper_from_header, hptr]
    rfl
  · simp only [small_wrapper_from_payload]
    have hh : small_wrapper_header
        (small_wrapper_alloc base payload_size A header_size).payload
        header_size =
        (small_wrapper_alloc base payload_size A header_size).header := rfl
    rw [hh, hptr]
    rfl

/-- Witness for `small_wrapper_roundtrip` at
`base = 24, payload_size = 7, A = 2, header_size = 8`. -/
theorem small_wrapper_roundtrip_witness :
    (small_wrapper_from_header (small_wrapper_alloc 24 7 2 8).header
        (small_wrapper_alloc 24 7 2 8).alloc_offset 7 2 8) =
      small_wrapper_alloc 24 7 2 8 ∧
    (small_wrapper_from_payload (small_wrapper_alloc 24 7 2 8).payload
        (small_wrapper_alloc 24 7 2 8).alloc_offset 8) =
      small_wrapper_alloc 24 7 2 8 :=
  small_wrapper_roundtrip 24 7 2 8 1 (by norm_num) (by decide)

/-! ## Small allocator (`small_asan.c`)

`quota_lessor.h` is not under `src/`, so the lease service is modelled from
the spec; `struct small_object` is declared outside `src/`, and the code in
`src/small/small_asan.c` only ever writes and reads its `size` field, so the
`owner` field below is ghost bookkeeping (recording which instance performed
the allocation) used solely to state the cross-instance-free claim. -/

/-- Modelled from the spec: the Lease Service (`quota_lessor.h`, not under
`src/`) is "bytes-in / bytes-out quota accounting" against a budget of
`total` bytes; a lease that would exceed the budget is refused. -/
structure QuotaLessor where
  total : Nat
  leased : Nat
  deriving Repr, DecidableEq

/-- Modelled from the spec: `quota_lease(q, size)` admits the lease iff the
budget is not exceeded (`smalloc` treats a negative return as refusal). -/
def quota_lease (q : QuotaLessor) (size : Nat) : Option QuotaLessor :=
  if q.leased + size ≤ q.total then some { q with leased := q.leased + size }
  else none

/-- Modelled from the spec: `quota_end_lease(q, size)` returns `size` leased
bytes to the budget. -/
def quota_end_lease (q : QuotaLessor) (size : Nat) : QuotaLessor :=
  { q with leased := q.leased - size }

/-- Identifier of a `small_alloc` instance (two instances suffice for the
cross-instance claims). -/
inductive SmallInst where
  | A
  | B
  deriving Repr, DecidableEq

/-- A live `struct small_object`: `id` stands for the block's address,
`size` is the stored field written by `smalloc`; `owner` is ghost state (the
C code stores no identity tag). -/
structure SmallObject where
  id : Nat
  size : Nat
  owner : SmallInst
  deriving Repr, DecidableEq

/-- Per-instance state of `struct small_alloc`. -/
structure SmallAllocState where
  quota : QuotaLessor
  used : Nat
  objcount : Nat
  deriving Repr, DecidableEq

/-- The two allocator instances plus the shared heap of live objects (the
payload→header derivation is plain pointer arithmetic, so `smfree` reaches
any live object regardless of which instance's list links it). -/
structure SmallWorld where
  heap : List SmallObject
  instA : SmallAllocState
  instB : SmallAllocState
  nextId : Nat
  deriving Repr, DecidableEq

def SmallWorld.get (w : SmallWorld) : SmallInst → SmallAllocState
  | SmallInst.A => w.instA
  | SmallInst.B => w.instB

def SmallWorld.set (w : SmallWorld) : SmallInst → SmallAllocState → SmallWorld
  | SmallInst.A, s => { w with instA := s }
  | SmallInst.B, s => { w with instB := s }

/-- `smalloc(alloc, size)` (small_asan.c): lease the quota (refusing with a
null payload on exhaustion), create the block, store `size` in the header,
link it, update `used` and `objcount`. -/
def smalloc (w : SmallWorld) (who : SmallInst) (size : Nat) :
    SmallWorld × Option Nat :=
  match quota_lease (w.get who).quota size with
  | none => (w, none)
  | some q =>
    let st := w.get who
    let w' := w.set who
      { quota := q, used := st.used + size, objcount := st.objcount + 1 }
    ({ w' with heap := ⟨w.nextId, size, who⟩ :: w'.heap,
               nextId := w.nextId + 1 },
     some w.nextId)

/-- `smfree(alloc, ptr, size)` (small_asan.c): recover the header from the
payload, `small_assert(obj->size == size)` (fatal mismatch modelled as
`none`), credit the quota, unlink, update totals.  The code performs no
check that `ptr` was allocated by `alloc`. -/
def smfree (w : SmallWorld) (who : SmallInst) (ptr : Nat) (size : Nat) :
    Option SmallWorld :=
  match w.heap.find? (fun o => o.id = ptr) with
  | none => none
  | some obj =>
    if obj.size = size then
      let st := w.get who
      some { (w.set who
          { quota := quota_end_lease st.quota obj.size,
            used := st.used - obj.size,
            objcount := st.objcount - 1 }) with
        heap := w.heap.filter (fun o => ¬ o.id = ptr) }
    else none

/--
C1: a payload allocated by instance `A` and freed (with the matching size)
through instance `B` is NOT detected: `smfree` checks only the stored size,
so the cross-instance free completes silently (`some` result, no fatal
assertion) even though the block's ghost owner is `A`.  This contradicts the
claim, the spec, and the repository's own test
(`test/small_alloc.c`, `small_membership`, which expects the fatal message
"object and allocator id mismatch" in `smfree`).
-/
theorem smfree_cross_instance_not_detected :
    let w0 : SmallWorld :=
      { heap := [], instA := ⟨⟨100, 0⟩, 0, 0⟩, instB := ⟨⟨100, 0⟩, 0, 0⟩,
        nextId := 0 }
    let r := smalloc w0 SmallInst.A 8
    r.2 = some 0 ∧
    (r.1.heap.find? (fun o => o.id = 0)).map (fun o => o.owner) =
      some SmallInst.A ∧
    smfree r.1 SmallInst.B 0 8 ≠ none := by
  decide

theorem SmallWorld.get_set_self (w : SmallWorld) (who : SmallInst)
    (s : SmallAllocState) : (w.set who s).get who = s := by
  cases who <;> rfl

/--
C6 counterexample: with a quota of exactly 10 bytes and a single
outstanding 2-byte allocation, `smalloc` of 20 bytes is refused; freeing
the outstanding 2-byte allocation and retrying the same `smalloc` is
refused again — so "after smfree of any outstanding allocation a retry of
the same smalloc succeeds" is false as stated.
-/
theorem smalloc_retry_counterexample :
    let w0 : SmallWorld :=
      { heap := [], instA := ⟨⟨10, 0⟩, 0, 0⟩, instB := ⟨⟨10, 0⟩, 0, 0⟩,
        nextId := 0 }
    let r1 := smalloc w0 SmallInst.A 2
    r1.2 = some 0 ∧
    smalloc r1.1 SmallInst.A 20 = (r1.1, none) ∧
    ∃ w2, smfree r1.1 SmallInst.A 0 2 = some w2 ∧
      (smalloc w2 SmallInst.A 20).2 = none := by
  decide

/--
C6 (amended): with a quota of exactly `N` bytes, a `smalloc` whose size
would bring the outstanding leased bytes above `N` returns no payload and
leaves the state unchanged (so the outstanding total stays `≤ N`); freeing
an outstanding allocation of size `s` succeeds, and a retry of the same
`smalloc` then succeeds provided the refused request overshot the quota by
at most `s` (in particular in the spec's `(N+1)`-th-byte scenario, where
the overshoot is one byte).
-/
theorem smalloc_quota_boundary (w : SmallWorld) (who : SmallInst)
    (size ptr s : Nat) (obj : SmallObject)
    (hle : (w.get who).quota.leased ≤ (w.get who).quota.total)
    (hover : (w.get who).quota.total < (w.get who).quota.leased + size)
    (hfind : w.heap.find? (fun o => o.id = ptr) = some obj)
    (hsz : obj.size = s)
    (hs_out : s ≤ (w.get who).quota.leased) :
    smalloc w who size = (w, none) ∧
    (w.get who).quota.leased ≤ (w.get who).quota.total ∧
    ∃ w', smfree w who ptr s = some w' ∧
      ((w.get who).quota.leased + size ≤ (w.get who).quota.total + s →
        (smalloc w' who size).2.isSome) := by
  refine ⟨?_, hle, ?_⟩
  · unfold smalloc quota_lease
    rw [if_neg (by omega)]
  · set st' : SmallAllocState :=
      { quota := quota_end_lease (w.get who).quota obj.size,
        used := (w.get who).used - obj.size,
        objcount := (w.get who).objcount - 1 } with hst'
    refine ⟨{ (w.set who st') with
        heap := w.heap.filter (fun o => ¬ o.id = ptr) }, ?_, ?_⟩
    · unfold smfree
      rw [hfind]
      dsimp only
      rw [if_pos hsz]
    · intro hretry
      have hget : ({ (w.set who st') with
          heap := w.heap.filter (fun o => ¬ o.id = ptr) } : SmallWorld).get
          who = st' := by
        cases who <;> rfl
      unfold smalloc
      rw [hget]
      have hcond : st'.quota.leased + size ≤ st'.quota.total := by
        simp only [hst', quota_end_lease, hsz]
        omega
      have hlease : quota_lease st'.quota size =
          some { st'.quota with leased := st'.quota.leased + size } := by
        unfold quota_lease
        rw [if_pos hcond]
      rw [hlease]
      rfl

/-- Witness for `smalloc_quota_boundary`: quota of 10 bytes, one
outstanding 2-byte allocation, a refused 9-byte request (overshoot 1), and
a successful retry after the free. -/
theorem smalloc_quota_boundary_witness :
    (smalloc
        ({ heap := [⟨0, 2, SmallInst.A⟩], instA := ⟨⟨10, 2⟩, 2, 1⟩,
           instB := ⟨⟨10, 0⟩, 0, 0⟩, nextId := 1 } : SmallWorld)
        SmallInst.A 9 =
      (({ heap := [⟨0, 2, SmallInst.A⟩], instA := ⟨⟨10, 2⟩, 2, 1⟩,
          instB := ⟨⟨10, 0⟩, 0, 0⟩, nextId := 1 } : SmallWorld), none)) ∧
    (({ heap := [⟨0, 2, SmallInst.A⟩], instA := ⟨⟨10, 2⟩, 2, 1⟩,
        instB := ⟨⟨10, 0⟩, 0, 0⟩, nextId := 1 } : SmallWorld).get
        SmallInst.A).quota.leased ≤
      (({ heap := [⟨0, 2, SmallInst.A⟩], instA := ⟨⟨10, 2⟩, 2, 1⟩,
          instB := ⟨⟨10, 0⟩, 0, 0⟩, nextId := 1 } : SmallWorld).get
          SmallInst.A).quota.total ∧
    ∃ w', smfree
        ({ heap := [⟨0, 2, SmallInst.A⟩], instA := ⟨⟨10, 2⟩, 2, 1⟩,
           instB := ⟨⟨10, 0⟩, 0, 0⟩, nextId := 1 } : SmallWorld)
        SmallInst.A 0 2 = some w' ∧
      ((({ heap := [⟨0, 2, SmallInst.A⟩], instA := ⟨⟨10, 2⟩, 2, 1⟩,
           instB := ⟨⟨10, 0⟩, 0, 0⟩, nextId := 1 } : SmallWorld).get
           SmallInst.A).quota.leased + 9 ≤
        (({ heap := [⟨0, 2, SmallInst.A⟩], instA := ⟨⟨10, 2⟩, 2, 1⟩,
            instB := ⟨⟨10, 0⟩, 0, 0⟩, nextId := 1 } : SmallWorld).get
            SmallInst.A).quota.total + 2 →
        (smalloc w' SmallInst.A 9).2.isSome) :=
  smalloc_quota_boundary _ SmallInst.A 9 0 2 ⟨0, 2, SmallInst.A⟩
    (by decide) (by decide) (by decide) (by decide) (by decide)

/-! ## Mempool (`mempool_asan.c`, `mempool_asan.h`) -/

/-- `MEMPOOL_ASAN_MAX_ALIGNMENT` (mempool_asan.c). -/
def MEMPOOL_ASAN_MAX_ALIGNMENT : Nat := 4096

/-- `1 << (__builtin_ffs(n) - 1)`: the lowest set bit of `n`, i.e. the
largest power-of-two divisor of `n > 0` (0 is never passed:
`mempool_create` asserts `objsize > 0`).  `n ^^^ (n - 1)` masks the lowest
set bit and everything below it. -/
def mempool_lowbit (n : Nat) : Nat :=
  n &&& (n ^^^ (n - 1))

/-- The mempool state (`struct mempool`, mempool_asan.h): object size,
live-object count, derived alignment, and the membership list of live
objects (block ids, most recent first as `rlist_add` prepends). -/
structure Mempool where
  objsize : Nat
  objcount : Nat
  alignment : Nat
  objects : List Nat
  nextId : Nat
  deriving Repr, DecidableEq

/-- `mempool_create(pool, cache, objsize)` (mempool_asan.c):
`small_assert(objsize > 0)` is fatal on 0 (modelled as `none`); the
alignment is the largest power-of-two divisor of `objsize` capped at
`MEMPOOL_ASAN_MAX_ALIGNMENT`. -/
def mempool_create (objsize : Nat) : Option Mempool :=
  if 0 < objsize then
    let a := mempool_lowbit objsize
    some { objsize := objsize, objcount := 0,
           alignment := if MEMPOOL_ASAN_MAX_ALIGNMENT < a then
             MEMPOOL_ASAN_MAX_ALIGNMENT else a,
           objects := [], nextId := 0 }
  else none

/-- `mempool_alloc(pool)` (mempool_asan.c): wraps a fresh block, links it at
the head of the membership list, increments `objcount`, returns the
payload. -/
def mempool_alloc (p : Mempool) : Mempool × Nat :=
  ({ p with objects := p.nextId :: p.objects, objcount := p.objcount + 1,
            nextId := p.nextId + 1 },
   p.nextId)

/-- `mempool_free(pool, ptr)` (mempool_asan.c): recovers the header from the
payload, unlinks it, decrements `objcount`, frees the block.  Freeing a
pointer that is not a live allocation of this pool is undefined behaviour in
C, modelled as `none`. -/
def mempool_free (p : Mempool) (ptr : Nat) : Option Mempool :=
  if ptr ∈ p.objects then
    some { p with objects := p.objects.erase ptr,
                  objcount := p.objcount - 1 }
  else none

/-- `mempool_destroy(pool)` (mempool_asan.c): walks the membership list and
frees every remaining member; returns the list of freed blocks together
with the drained pool. -/
def mempool_destroy (p : Mempool) : List Nat × Mempool :=
  (p.objects, { p with objects := [] })

/-- `struct mempool_stats` as filled by `mempool_stats` (mempool_asan.h). -/
structure MempoolStats where
  objsize : Nat
  objcount : Nat
  used : Nat
  total : Nat
  slabsize : Nat
  slabcount : Nat
  deriving Repr, DecidableEq

/-- `mempool_stats(pool, stats)` (mempool_asan.h): reports `objsize`,
`objcount`, `used = objsize * objcount`, `total = used`, and zero
slab-level stats. -/
def mempool_stats (p : Mempool) : MempoolStats :=
  { objsize := p.objsize, objcount := p.objcount,
    used := p.objsize * p.objcount, total := p.objsize * p.objcount,
    slabsize := 0, slabcount := 0 }

/-- One client operation against a mempool. -/
inductive MempoolOp where
  | alloc
  | free (ptr : Nat)
  deriving Repr, DecidableEq

def MempoolOp.isAlloc : MempoolOp → Bool
  | .alloc => true
  | .free _ => false

/-- Run a sequence of alloc/free operations; `none` as soon as a free does
not hit a live allocation. -/
def mempool_run (p : Mempool) : List MempoolOp → Option Mempool
  | [] => some p
  | MempoolOp.alloc :: ops => mempool_run (mempool_alloc p).1 ops
  | MempoolOp.free ptr :: ops =>
    match mempool_free p ptr with
    | none => none
    | some q => mempool_run q ops

def countAllocs : List MempoolOp → Nat
  | [] => 0
  | MempoolOp.alloc :: ops => countAllocs ops + 1
  | MempoolOp.free _ :: ops => countAllocs ops

def countFrees : List MempoolOp → Nat
  | [] => 0
  | MempoolOp.alloc :: ops => countFrees ops
  | MempoolOp.free _ :: ops => countFrees ops + 1

/-- Bookkeeping invariant preserved by any valid run: the object count
matches the membership list, the object size never changes, and the count
evolves by (number of allocs) − (number of frees). -/
theorem mempool_run_invariant (ops : List MempoolOp) (p q : Mempool)
    (hinv : p.objects.length = p.objcount)
    (hrun : mempool_run p ops = some q) :
    q.objects.length = q.objcount ∧ q.objsize = p.objsize ∧
    q.objcount + countFrees ops = p.objcount + countAllocs ops := by
  induction ops generalizing p with
  | nil =>
    simp only [mempool_run, Option.some.injEq] at hrun
    subst hrun
    simp [hinv, countAllocs, countFrees]
  | cons op rest ih =>
    cases op with
    | alloc =>
      simp only [mempool_run] at hrun
      have h := ih (mempool_alloc p).1 (by simp [mempool_alloc, hinv]) hrun
      simp only [mempool_alloc] at h
      simp only [countAllocs, countFrees]
      exact ⟨h.1, h.2.1, by omega⟩
    | free ptr =>
      simp only [mempool_run] at hrun
      cases hfree : mempool_free p ptr with
      | none =>
        rw [hfree] at hrun
        simp at hrun
      | some p2 =>
        rw [hfree] at hrun
        simp only at hrun
        simp only [mempool_free] at hfree
        split at hfree
        · rename_i hmem
          have hp2 := Option.some.inj hfree
          subst hp2
          have hlen := List.length_erase_of_mem hmem
          have hpos : 0 < p.objects.length :=
            List.length_pos.mpr (List.ne_nil_of_mem hmem)
          have h := ih _ (by simp only []; omega) hrun
          simp only [countAllocs, countFrees]
          refine ⟨h.1, h.2.1, ?_⟩
          have h3 := h.2.2
          simp only [] at h3
          omega
        · exact absurd hfree (by simp)

/--
C9: for every mempool and every valid interleaving of `N` `mempool_alloc`
and `M` `mempool_free` calls (each free hits a live object, hence
`M ≤ N`), the live-object count equals `N - M`; the reported stats satisfy
`objsize = S`, `used = objsize * objcount` with slab-level stats
(`slabsize`, `slabcount`) zero; and `mempool_destroy` on a pool with `K`
live objects frees exactly those `K` blocks.
-/
theorem mempool_interleaving_spec (S : Nat) (ops : List MempoolOp)
    (p0 q : Mempool) (hcreate : mempool_create S = some p0)
    (hrun : mempool_run p0 ops = some q) :
    q.objcount = countAllocs ops - countFrees ops ∧
    countFrees ops ≤ countAllocs ops ∧
    mempool_stats q =
      { objsize := S, objcount := q.objcount, used := S * q.objcount,
        total := S * q.objcount, slabsize := 0, slabcount := 0 } ∧
    (mempool_destroy q).1 = q.objects ∧
    (mempool_destroy q).1.length = q.objcount := by
  unfold mempool_create at hcreate
  by_cases hS : 0 < S
  · rw [if_pos hS] at hcreate
    have hp0 := Option.some.inj hcreate
    subst hp0
    have h := mempool_run_invariant ops _ q rfl hrun
    rcases h with ⟨hq1, hq2, hq3⟩
    simp only [] at hq2 hq3
    refine ⟨by omega, by omega, ?_, rfl, hq1⟩
    unfold mempool_stats
    rw [hq2]
  · rw [if_neg hS] at hcreate
    exact absurd hcreate (by simp)

/-- Witness for `mempool_interleaving_spec`: object size 12, three allocs
and one free (a valid interleaving) leave two live objects, and destroying
the pool frees exactly those two blocks. -/
theorem mempool_interleaving_spec_witness :
    (⟨12, 2, 4, [2, 1], 3⟩ : Mempool).objcount =
      countAllocs [MempoolOp.alloc, MempoolOp.alloc, MempoolOp.free 0,
        MempoolOp.alloc] -
      countFrees [MempoolOp.alloc, MempoolOp.alloc, MempoolOp.free 0,
        MempoolOp.alloc] ∧
    countFrees [MempoolOp.alloc, MempoolOp.alloc, MempoolOp.free 0,
        MempoolOp.alloc] ≤
      countAllocs [MempoolOp.alloc, MempoolOp.alloc, MempoolOp.free 0,
        MempoolOp.alloc] ∧
    mempool_stats (⟨12, 2, 4, [2, 1], 3⟩ : Mempool) =
      { objsize := 12,
        objcount := (⟨12, 2, 4, [2, 1], 3⟩ : Mempool).objcount,
        used := 12 * (⟨12, 2, 4, [2, 1], 3⟩ : Mempool).objcount,
        total := 12 * (⟨12, 2, 4, [2, 1], 3⟩ : Mempool).objcount,
        slabsize := 0, slabcount := 0 } ∧
    (mempool_destroy (⟨12, 2, 4, [2, 1], 3⟩ : Mempool)).1 =
      (⟨12, 2, 4, [2, 1], 3⟩ : Mempool).objects ∧
    (mempool_destroy (⟨12, 2, 4, [2, 1], 3⟩ : Mempool)).1.length =
      (⟨12, 2, 4, [2, 1], 3⟩ : Mempool).objcount :=
  mempool_interleaving_spec 12
    [MempoolOp.alloc, MempoolOp.alloc, MempoolOp.free 0, MempoolOp.alloc]
    ⟨12, 0, 4, [], 0⟩ ⟨12, 2, 4, [2, 1], 3⟩ (by decide) (by decide)

/-! ## Lsregion (`lsregion_asan.c`) -/

/-- `struct lsregion_allocation` bookkeeping fields: the caller-supplied
sequence id (`int64_t`) and the allocation size. -/
structure LsregionAllocation where
  id : Int
  size : Nat
  deriving Repr, DecidableEq

/-- The lsregion state: the membership list in insertion order (new entries
append to the tail, `rlist_add_tail`) and the `used` total. -/
structure Lsregion where
  allocations : List LsregionAllocation
  used : Nat
  deriving Repr, DecidableEq

/-- `lsregion_aligned_alloc(lsregion, size, alignment, id)`
(lsregion_asan.c): wraps a fresh block, records `size` and `id`, appends to
the tail of the membership list, adds to `used`.  The alignment argument
only affects the block layout, not the bookkeeping modelled here. -/
def lsregion_aligned_alloc (r : Lsregion) (size : Nat) (alignment : Nat)
    (id : Int) : Lsregion :=
  let _ := alignment
  { allocations := r.allocations ++ [⟨id, size⟩], used := r.used + size }

/-- The walk of `lsregion_gc`: frees entries from the oldest end while
`id ≤ min_id`, stopping at the first entry with `id > min_id`;
`small_assert(lsregion->used >= alloc->size)` is fatal (modelled `none`).
Returns (surviving list, new `used`, freed entries in walk order). -/
def lsregion_gc_go (l : List LsregionAllocation) (used : Nat) (min_id : Int) :
    Option (List LsregionAllocation × Nat × List LsregionAllocation) :=
  match l with
  | [] => some ([], used, [])
  | a :: rest =>
    if min_id < a.id then some (a :: rest, used, [])
    else if a.size ≤ used then
      (lsregion_gc_go rest (used - a.size) min_id).map
        fun x => (x.1, x.2.1, a :: x.2.2)
    else none

/-- `lsregion_gc(lsregion, min_id)` (lsregion_asan.c). -/
def lsregion_gc (r : Lsregion) (min_id : Int) :
    Option (Lsregion × List LsregionAllocation) :=
  (lsregion_gc_go r.allocations r.used min_id).map
    fun x => ({ allocations := x.1, used := x.2.1 }, x.2.2)

theorem lsregion_gc_go_spec (l : List LsregionAllocation) (used : Nat)
    (min_id : Int) (hsort : l.Pairwise (fun a b => a.id ≤ b.id))
    (hused : (l.map (fun a => a.size)).sum ≤ used) :
    lsregion_gc_go l used min_id =
      some (l.filter (fun a => min_id < a.id),
        used - ((l.filter (fun a => a.id ≤ min_id)).map
          (fun a => a.size)).sum,
        l.filter (fun a => a.id ≤ min_id)) := by
  induction l generalizing used with
  | nil => simp [lsregion_gc_go]
  | cons a rest ih =>
    rcases List.pairwise_cons.mp hsort with ⟨ha, hsort'⟩
    simp only [List.map_cons, List.sum_cons] at hused
    unfold lsregion_gc_go
    by_cases hid : min_id < a.id
    · rw [if_pos hid]
      have hkeep : rest.filter (fun b => decide (min_id < b.id)) = rest :=
        List.filter_eq_self.mpr (fun b hb => by
          have := ha b hb
          simp only [decide_eq_true_eq]
          omega)
      have hdrop : (a :: rest).filter (fun b => decide (b.id ≤ min_id)) =
          [] := by
        rw [List.filter_eq_nil_iff]
        intro b hb
        simp only [decide_eq_true_eq]
        rcases List.mem_cons.mp hb with hb | hb
        · subst hb; omega
        · have := ha b hb; omega
      rw [hdrop]
      simp only [List.filter_cons, decide_eq_true_eq]
      rw [if_pos hid, hkeep]
      simp
    · rw [if_neg hid, if_pos (by omega)]
      rw [ih (used - a.size) hsort' (by omega)]
      simp only [Option.map_some', List.filter_cons, decide_eq_true_eq]
      rw [if_neg hid, if_pos (by omega)]
      simp only [List.map_cons, List.sum_cons, Option.some.injEq,
        Prod.mk.injEq]
      exact ⟨trivial, by omega, trivial⟩

/--
C7: for every lsregion whose membership list was inserted with
non-decreasing ids, `lsregion_gc(min_id)` frees exactly the entries whose
id is `≤ min_id` (the walk stops at the first entry whose id exceeds
`min_id`) and leaves the surviving entries — exactly those with
`id > min_id` — live in their original relative order, updating `used` by
the freed sizes.
-/
theorem lsregion_gc_spec (r : Lsregion) (min_id : Int)
    (hsort : r.allocations.Pairwise (fun a b => a.id ≤ b.id))
    (hused : (r.allocations.map (fun a => a.size)).sum ≤ r.used) :
    lsregion_gc r min_id =
      some ({ allocations := r.allocations.filter (fun a => min_id < a.id),
              used := r.used - ((r.allocations.filter
                (fun a => a.id ≤ min_id)).map (fun a => a.size)).sum },
            r.allocations.filter (fun a => a.id ≤ min_id)) := by
  unfold lsregion_gc
  rw [lsregion_gc_go_spec r.allocations r.used min_id hsort hused]
  rfl

/-- Witness for `lsregion_gc_spec`: ids 1,1,2,3,5 inserted by
`lsregion_aligned_alloc` (sizes 10,20,30,40,50); `gc(2)` frees exactly the
three id ≤ 2 entries and leaves ids 3 and 5 live, in original relative
order. -/
theorem lsregion_gc_spec_witness :
    lsregion_gc
      (lsregion_aligned_alloc
        (lsregion_aligned_alloc
          (lsregion_aligned_alloc
            (lsregion_aligned_alloc
              (lsregion_aligned_alloc ⟨[], 0⟩ 10 8 1) 20 8 1) 30 8 2)
          40 8 3) 50 8 5) 2 =
      some (⟨[⟨3, 40⟩, ⟨5, 50⟩], 90⟩, [⟨1, 10⟩, ⟨1, 20⟩, ⟨2, 30⟩]) :=
  (lsregion_gc_spec _ 2 (by decide) (by decide)).trans (by decide)

/-! ## Region (`region_asan.c`) -/

/-- `struct region_allocation` bookkeeping (fields written by
`region_prepare_buf` / `region_aligned_alloc_reserved`): block size, bytes
actually consumed, alignment.  `data` models the consumed payload bytes
`payload[0, used)` as written by the caller (ghost content used to state
the `region_join` claim). -/
structure RegionAllocation where
  size : Nat
  used : Nat
  alignment : Nat
  data : List Nat
  deriving Repr, DecidableEq

/-- The region state: membership list most-recent-first (`rlist_add` links
at the head), total `used`, pending reservation size. -/
structure Region where
  allocations : List RegionAllocation
  used : Nat
  reserved : Nat
  deriving Repr, DecidableEq

/-- `small_getpagesize()` (util.h): one memory page. -/
def SMALL_PAGESIZE : Nat := 4096

/-- `region_prepare_buf(region, size, alignment, used)` (region_asan.c):
wrap a fresh block, record `size`, `used`, `alignment`, link at the head.
`data` is the ghost payload content the caller writes afterwards. -/
def region_prepare_buf (r : Region) (size alignment used : Nat)
    (data : List Nat) : Region :=
  { r with allocations := ⟨size, used, alignment, data⟩ :: r.allocations }

/-- `region_aligned_reserve(region, size, alignment)` (region_asan.c):
`small_assert(region->reserved == 0)` (fatal, modelled `none`); the size is
raised to at least one page; records logical `used = 0`. -/
def region_aligned_reserve (r : Region) (size alignment : Nat) :
    Option Region :=
  if r.reserved = 0 then
    let size := if size < SMALL_PAGESIZE then SMALL_PAGESIZE else size
    some { region_prepare_buf r size alignment 0 [] with reserved := size }
  else none

/-- The copy loop of `region_join` (region_asan.c): walking from the most
recent record, `copy_size = min(alloc->used, offset)` bytes are copied from
`wrapper.payload` — the FIRST `copy_size` bytes of the record — to
`ret + offset - copy_size`.  Returns the contents of the fresh buffer;
walking past the end of the membership list is `none`. -/
def region_join_go : List RegionAllocation → Nat → Option (List Nat)
  | _, 0 => some []
  | [], _ + 1 => none
  | a :: rest, offset + 1 =>
    let c := min a.used (offset + 1)
    (region_join_go rest (offset + 1 - c)).map fun pre => pre ++ a.data.take c

/-- `region_join(region, size)` (region_asan.c):
`small_assert(size <= region->used)` and
`small_assert(region->reserved == 0)` are fatal (`none`); a fresh `size`
byte block is allocated via `region_alloc` (declared outside `src/`;
modelled per its use as `region_aligned_alloc` with alignment 1, which
prepends the block and adds `size` to the total) and the copy loop fills
it, walking the records that were most recent before the call. -/
def region_join (r : Region) (size : Nat) : Option (Region × List Nat) :=
  if size ≤ r.used ∧ r.reserved = 0 then
    (region_join_go r.allocations size).map fun bytes =>
      ({ allocations := ⟨size, size, 1, bytes⟩ :: r.allocations,
         used := r.used + size, reserved := 0 }, bytes)
  else none

/-- The region's logical contents: the consumed bytes of each record,
oldest first. -/
def region_contents (r : Region) : List Nat :=
  (r.allocations.reverse.map (fun a => a.data)).flatten

/--
C3: `region_join` does allocate a fresh block and free no original record,
but the buffer it builds does NOT hold the last `size` bytes of the
region's logical contents when a record lies only partially inside them:
the copy loop reads the record's LEADING bytes (`wrapper.payload`), not its
trailing bytes.  Records `[1,2,3,4]` then `[5,6]`: `join(5)` returns
`[1,2,3,5,6]`, while the last 5 logical bytes are `[2,3,4,5,6]`.
-/
theorem region_join_copies_leading_bytes :
    (region_join
        (⟨[⟨2, 2, 1, [5, 6]⟩, ⟨4, 4, 1, [1, 2, 3, 4]⟩], 6, 0⟩ : Region)
        5 =
      some (⟨⟨5, 5, 1, [1, 2, 3, 5, 6]⟩ ::
          [⟨2, 2, 1, [5, 6]⟩, ⟨4, 4, 1, [1, 2, 3, 4]⟩], 11, 0⟩,
        [1, 2, 3, 5, 6])) ∧
    (region_contents
        (⟨[⟨2, 2, 1, [5, 6]⟩, ⟨4, 4, 1, [1, 2, 3, 4]⟩], 6, 0⟩ : Region)
      ).drop
      ((region_contents
        (⟨[⟨2, 2, 1, [5, 6]⟩, ⟨4, 4, 1, [1, 2, 3, 4]⟩], 6, 0⟩ : Region)
      ).length - 5) = [2, 3, 4, 5, 6] ∧
    ([1, 2, 3, 5, 6] : List Nat) ≠ [2, 3, 4, 5, 6] := by
  refine ⟨?_, by decide, by decide⟩
  rfl

/-! ## Obuf (`obuf_asan.c`, `obuf_asan.h`) -/

/-- `SMALL_OBUF_IOV_MAX = IOV_MAX` (obuf_asan.h); `IOV_MAX` is the POSIX
constant from `<sys/uio.h>`, 1024 on Linux.  No proved property depends on
its exact value beyond it being larger than the slots exercised. -/
def SMALL_OBUF_IOV_MAX : Nat := 1024

/-- `SMALL_OBUF_IOV_GEOMETRIC_SIZE` (obuf_asan.h). -/
def SMALL_OBUF_IOV_GEOMETRIC_SIZE : Nat := 32

/-- `SMALL_OBUF_IOV_CHECKED_SIZE` (obuf_asan.h). -/
def SMALL_OBUF_IOV_CHECKED_SIZE : Nat :=
  SMALL_OBUF_IOV_MAX + 1 - SMALL_OBUF_IOV_GEOMETRIC_SIZE

/-- One `struct iovec` slot: `iov_base` (a block id, `none` for NULL) and
`iov_len`. -/
structure IoVec where
  base : Option Nat
  len : Nat
  deriving Repr, DecidableEq

/-- The obuf state (`struct obuf`, obuf_asan.h).  `iov` and `capacity` are
modelled as total functions over slot indices; `nextId` provides fresh
block ids. -/
structure Obuf where
  iov : Nat → IoVec
  capacity : Nat → Nat
  pos : Nat
  used : Nat
  reserved : Nat
  start_capacity : Nat
  nextId : Nat

/-- Point update of the iov array. -/
def updIov (f : Nat → IoVec) (i : Nat) (v : IoVec) : Nat → IoVec :=
  fun j => if j = i then v else f j

/-- Point update of the capacity array. -/
def updCap (f : Nat → Nat) (i : Nat) (v : Nat) : Nat → Nat :=
  fun j => if j = i then v else f j

/-- `obuf_create(buf, slabc, start_capacity)` (obuf_asan.c): all iov slots
and capacities zeroed. -/
def obuf_create (start_capacity : Nat) : Obuf :=
  { iov := fun _ => ⟨none, 0⟩, capacity := fun _ => 0, pos := 0, used := 0,
    reserved := 0, start_capacity := start_capacity, nextId := 0 }

/-- The `while (capacity < size) capacity <<= 1` loop of
`obuf_prepare_buf`.  The C loop never terminates when `capacity == 0` and
`size > 0`; the model then returns `cap` (the guard `0 < cap` is the only
departure, unreachable for a positive start capacity). -/
def obuf_grow_capacity (cap size : Nat) : Nat :=
  if 0 < cap ∧ cap < size then obuf_grow_capacity (2 * cap) size else cap
termination_by size - cap
decreasing_by omega

/-- `obuf_prepare_buf(buf, size)` (obuf_asan.c): pick (or allocate) the
block the next allocation/reservation will use.  Checked slots get a fresh
wrapper block (with the slot-0 occupancy quirk); geometric slots reuse the
current block when it has room, else a fresh doubled block is allocated
(`small_assert(buf->pos < SMALL_OBUF_IOV_MAX)` is fatal, `none`). -/
def obuf_prepare_buf (b : Obuf) (size : Nat) : Option Obuf :=
  if SMALL_OBUF_IOV_CHECKED_SIZE - 1 ≤ b.pos then
    if b.pos < SMALL_OBUF_IOV_CHECKED_SIZE ∨
        b.capacity (b.pos - SMALL_OBUF_IOV_CHECKED_SIZE) <
          (b.iov b.pos).len + size then
      let cap := obuf_grow_capacity
        (b.start_capacity <<< (b.pos + 1 - SMALL_OBUF_IOV_CHECKED_SIZE))
        size
      if b.pos + 1 < SMALL_OBUF_IOV_MAX then
        some { b with pos := b.pos + 1,
                      iov := updIov b.iov (b.pos + 1) ⟨some b.nextId, 0⟩,
                      capacity := updCap b.capacity
                        (b.pos + 1 - SMALL_OBUF_IOV_CHECKED_SIZE) cap,
                      nextId := b.nextId + 1 }
      else none
    else some b
  else
    let pos := if (b.iov b.pos).base ≠ none then b.pos + 1 else b.pos
    some { b with pos := pos,
                  iov := updIov b.iov pos ⟨some b.nextId, 0⟩,
                  nextId := b.nextId + 1 }

/-- `obuf_reserve(buf, size)` (obuf_asan.c):
`small_assert(buf->reserved == 0)` is fatal (`none`); the size is raised to
at least one page. -/
def obuf_reserve (b : Obuf) (size : Nat) : Option Obuf :=
  if b.reserved = 0 then
    let size := if size < SMALL_PAGESIZE then SMALL_PAGESIZE else size
    (obuf_prepare_buf b size).map fun b' => { b' with reserved := size }
  else none

/-- `obuf_alloc_reserved(buf, size)` (obuf_asan.c):
`small_assert(size <= buf->reserved)` is fatal (`none`); consumes from the
current slot and clears the reservation. -/
def obuf_alloc_reserved (b : Obuf) (size : Nat) : Option Obuf :=
  if size ≤ b.reserved then
    some { b with iov := updIov b.iov b.pos
                    ⟨(b.iov b.pos).base, (b.iov b.pos).len + size⟩,
                  used := b.used + size, reserved := 0 }
  else none

/-- `obuf_alloc(buf, size)` (obuf_asan.c). -/
def obuf_alloc (b : Obuf) (size : Nat) : Option Obuf :=
  if b.reserved ≠ 0 then obuf_alloc_reserved b size
  else (obuf_prepare_buf b size).map fun b' =>
    { b' with iov := updIov b'.iov b'.pos
                ⟨(b'.iov b'.pos).base, (b'.iov b'.pos).len + size⟩,
              used := b'.used + size }

/-- `struct obuf_svp` and `obuf_create_svp` (obuf_asan.h). -/
structure ObufSvp where
  pos : Nat
  iov_len : Nat
  used : Nat
  deriving Repr, DecidableEq

def obuf_create_svp (b : Obuf) : ObufSvp :=
  ⟨b.pos, (b.iov b.pos).len, b.used⟩

/-- `obuf_iovcnt(buf)` (obuf_asan.h). -/
def obuf_iovcnt (b : Obuf) : Nat :=
  if (b.iov b.pos).base ≠ none then b.pos + 1 else b.pos

/-- `obuf_rollback_to_svp(buf, svp)` (obuf_asan.c):
`small_assert(svp->pos <= buf->pos)` is fatal (`none`).  Returns the new
state together with the `iov_base` values passed to the checked-slot frees
(`for (i = pos; i < endpos; i++)`, `endpos = min(buf->pos, CHECKED)`) and
to the geometric-slot frees
(`for (i = startpos; i <= buf->pos; i++)`, `startpos = max(pos, CHECKED)`),
in loop order.  The tail iov entries are memset to zero, the geometric
capacities are cleared, and `pos`, `used` and the savepoint slot's length
are restored. -/
def obuf_rollback_to_svp (b : Obuf) (svp : ObufSvp) :
    Option (Obuf × List (Option Nat) × List (Option Nat)) :=
  if svp.pos ≤ b.pos then
    let pos := if ¬(svp.pos = 0 ∧ svp.iov_len = 0 ∧ (b.iov 0).base ≠ none)
      then svp.pos + 1 else svp.pos
    let endpos := min b.pos SMALL_OBUF_IOV_CHECKED_SIZE
    let freedChecked := (List.range' pos (endpos - pos)).map
      fun i => (b.iov i).base
    let startpos := max pos SMALL_OBUF_IOV_CHECKED_SIZE
    let freedGeom := (List.range' startpos (b.pos + 1 - startpos)).map
      fun i => (b.iov i).base
    let cap' := fun j =>
      if startpos ≤ j + SMALL_OBUF_IOV_CHECKED_SIZE ∧
          j + SMALL_OBUF_IOV_CHECKED_SIZE ≤ b.pos then 0 else b.capacity j
    let iov1 := fun j =>
      if pos ≤ j ∧ j ≤ b.pos then (⟨none, 0⟩ : IoVec) else b.iov j
    let iov2 := updIov iov1 svp.pos ⟨(iov1 svp.pos).base, svp.iov_len⟩
    some ({ b with iov := iov2, capacity := cap', pos := svp.pos,
                   used := svp.used, reserved := 0 },
          freedChecked, freedGeom)
  else none

/--
C2: evaluation of `obuf_rollback_to_svp` at a concrete run contradicting
the claim.  Empty obuf; `alloc 5` fills checked slot 0 (block 0); the
savepoint is taken (slot 0, length 5); `alloc 7` opens checked slot 1
(block 1).  Rolling back frees NOTHING — both free lists are empty even
though slot 1 (strictly after the savepoint slot, and equal to the current
slot `buf->pos`) holds live block 1 — because the checked free loop runs
`i < endpos` with `endpos = buf->pos`, excluding the current slot; the
block leaks while the slot entry is wiped.  The rest of the rollback
contract (used, pos and the savepoint slot's length restored, tail entries
reset) does hold.
-/
theorem obuf_rollback_current_slot_not_freed :
    ((obuf_alloc (obuf_create 65536) 5).bind fun b1 =>
      (obuf_alloc b1 7).bind fun b2 =>
        (obuf_rollback_to_svp b2 (obuf_create_svp b1)).map fun r =>
          ((b2.iov 1).base, r.2.1, r.2.2, r.1.used, r.1.pos,
           (r.1.iov 0).len, (r.1.iov 0).base, r.1.iov 1)) =
      some (some 1, [], [], 5, 0, 5, some 0, ⟨none, 0⟩) := by
  rfl

end SmallLib
